import Mathlib

/-!
Verification of the streaming-chat core of the vida frontend app.

The subsystem under study (spec §§4-5, §8) is:
  * the Transport Decoder inside `ApiService.sendChatStreamMessage`
    (src/unnamed/part_003, lines 160-245),
  * the Stream Session Controller (`useChatStream`; its source file is not
    part of the repository snapshot, only its caller `Chat.tsx` — where
    needed it is modelled from the spec, see `controllerRunAux`),
  * the History Store `useChatHistory` (src/src/hooks/useChatHistory.ts).

Modelling conventions:
  * JavaScript strings are modelled as `List Char` (`Str`); the byte stream
    is modelled at character granularity (the `TextDecoder` UTF-8 step is
    outside the properties considered, which are about ASCII-framed lines).
  * `JSON.parse` is modelled by `jsonParseObj`, a parser for the flat
    string-valued JSON objects used by this wire protocol
    (e.g. objects such as `\x7b"conversationId":"abc"\x7d`); payloads that are not
    such objects are treated as parse failures.  This matches
    observable behaviour on every protocol payload exercised here.
  * React `useState` cells and `useRef` sets become fields of explicit
    state records; an `async` operation becomes a pure function from the
    pre-state (plus the fetched response, or a fetch-failure marker) to the
    post-state.  Absence of a thrown exception corresponds to these
    functions being total.
-/

/-- JavaScript strings, modelled as lists of characters. -/
abbrev Str := List Char

/-- Whitespace characters removed by JS `String.prototype.trim` that can
occur in this protocol. -/
def isWsChar (c : Char) : Bool := c = ' ' || c = '\t' || c = '\n' || c = '\r'

/-- JS `s.trim()`. -/
def trimWs (s : Str) : Str :=
  ((s.dropWhile isWsChar).reverse.dropWhile isWsChar).reverse

/-- JS `s.startsWith(pre)`. -/
def startsWith : Str → Str → Bool
  | [], _ => true
  | _ :: _, [] => false
  | p :: ps, c :: cs => p = c && startsWith ps cs

/-- JS `buffer.split('\n')` followed by `buffer = lines.pop() || ''`
(part_003 lines 196-197): returns the complete (newline-terminated) lines
and the trailing fragment after the last newline. -/
def splitLines : Str → List Str × Str
  | [] => ([], [])
  | ch :: rest =>
    let p := splitLines rest
    if ch = '\n' then ([] :: p.1, p.2)
    else
      match p.1 with
      | [] => ([], ch :: p.2)
      | l :: ls => ((ch :: l) :: ls, p.2)

/-- First pass of `data.replace(/\\n/g, '\n')` (part_003 line 228):
replaces each two-character sequence backslash-`n` by a newline,
left to right. -/
def unescapeN : Str → Str
  | '\\' :: 'n' :: rest => '\n' :: unescapeN rest
  | c :: rest => c :: unescapeN rest
  | [] => []

/-- Second pass, `.replace(/\\r/g, '\r')` (part_003 line 228). -/
def unescapeR : Str → Str
  | '\\' :: 'r' :: rest => '\r' :: unescapeR rest
  | c :: rest => c :: unescapeR rest
  | [] => []

/-- The unescaping applied to a delta payload (part_003 line 228). -/
def unescapeData (s : Str) : Str := unescapeR (unescapeN s)

/-- Scan a JSON string body up to the closing quote (no escape sequences,
as none occur in the payload fields of this protocol). Returns the content and
the remaining input. -/
def scanJsonString : Str → Option (Str × Str)
  | [] => none
  | c :: rest =>
    if c = '"' then some ([], rest)
    else (scanJsonString rest).map (fun p => (c :: p.1, p.2))

/-- Parse the `"key":"value"` pairs of a flat JSON object, after the
opening brace, up to and including the closing brace.  Fuel-driven; the
fuel is the input length, which bounds the number of pairs. -/
def scanJsonPairs : Nat → Str → Option (List (Str × Str))
  | 0, _ => none
  | fuel + 1, s =>
    match s with
    | '"' :: rest =>
      match scanJsonString rest with
      | none => none
      | some (k, r1) =>
        match r1 with
        | ':' :: '"' :: r2 =>
          match scanJsonString r2 with
          | none => none
          | some (v, r3) =>
            match r3 with
            | ',' :: r4 => (scanJsonPairs fuel r4).map (fun l => (k, v) :: l)
            | ['}'] => some [(k, v)]
            | _ => none
        | _ => none
    | _ => none

/-- Model of `JSON.parse` restricted to the flat string-valued objects of
this wire protocol.  `none` models a thrown `SyntaxError` (and also any
JSON value that is not such an object; no protocol payload is one). -/
def jsonParseObj (s : Str) : Option (List (Str × Str)) :=
  match s with
  | '{' :: rest =>
    if rest = ['}'] then some []
    else scanJsonPairs (rest.length + 1) rest
  | _ => none

/-- JS property access `obj.field` on a parsed object (first binding; the
payloads of this protocol have no duplicate keys). -/
def lookupField (obj : List (Str × Str)) (key : Str) : Option Str :=
  match obj with
  | [] => none
  | (k, v) :: rest => if k = key then some v else lookupField rest key

/-- The four caller-visible notifications of the Transport Decoder:
invocations of `onInit`, `onDelta`, `onComplete`, `onError`
(part_003 lines 160-245). -/
inductive SSEvent where
  | init (conversationId : Str)
  | delta (text : Str)
  | complete
  | error (msg : Str)
deriving DecidableEq, Repr

/-- One iteration of the `for (const line of lines)` body
(part_003 lines 201-236): given the current event name and a line, returns
the new current event name and the emitted notifications.

Faithful details: the `event: ` branch stores the trimmed suffix; the
`data: ` branch trims the payload, dispatches on the current event name
(`init` parses JSON and emits only on a truthy `conversationId`; `complete`
ignores the payload; `error` falls back to the raw payload if JSON parsing
fails, and to `Unknown error` on a falsy `error` field; anything else is a
delta after unescaping); the trailing
`if (line.trim() === '') currentEvent = ''` sits INSIDE the `data: `
branch in the source (lines 232-235), so it is kept there — a line that
starts with `data: ` never trims to empty, making that reset unreachable,
and a genuinely empty line matches neither branch and changes nothing. -/
def processLine (cur : Str) (line : Str) : Str × List SSEvent :=
  if startsWith ("event: ".data) line then
    (trimWs (line.drop 7), [])
  else if startsWith ("data: ".data) line then
    let data := trimWs (line.drop 6)
    let evs :=
      if cur = ("init".data) then
        match jsonParseObj data with
        | some obj =>
          match lookupField obj ("conversationId".data) with
          | some v => if v = [] then [] else [SSEvent.init v]
          | none => []
        | none => []
      else if cur = ("complete".data) then [SSEvent.complete]
      else if cur = ("error".data) then
        [SSEvent.error
          (match jsonParseObj data with
           | some obj =>
             match lookupField obj ("error".data) with
             | some v => if v = [] then ("Unknown error".data) else v
             | none => ("Unknown error".data)
           | none => data)]
      else [SSEvent.delta (unescapeData data)]
    (if trimWs line = [] then [] else cur, evs)
  else (cur, [])

/-- The `for (const line of lines)` loop (part_003 lines 201-237),
threading the current event name through the lines of one chunk. -/
def processLines (cur : Str) : List Str → List SSEvent
  | [] => []
  | l :: ls => (processLine cur l).2 ++ processLines (processLine cur l).1 ls

/-- One iteration of the `while (true)` read loop (part_003 lines 189-238)
on accumulator (carry-over buffer, notifications so far): append the chunk
to the buffer, split off complete lines, keep the trailing fragment as the
new buffer, and process the complete lines.  `let currentEvent = ''` is
declared inside the while loop in the source (line 199), so every chunk
starts with the empty current event name. -/
def decodeStep (acc : Str × List SSEvent) (chunk : Str) : Str × List SSEvent :=
  ((splitLines (acc.1 ++ chunk)).2,
    acc.2 ++ processLines [] (splitLines (acc.1 ++ chunk)).1)

/-- All notifications emitted by the read loop over a chunked stream,
starting from an empty buffer.  The final buffer (the unterminated
trailing fragment) is dropped when `done` becomes true, exactly as in the
source (line 191 `if (done) break`). -/
def decodeChunksLoop (chunks : List Str) : List SSEvent :=
  (chunks.foldl decodeStep ([], [])).2

/-- The complete success-path decoding of `sendChatStreamMessage`: the
read loop followed by the unconditional `onComplete()` flush after the
loop (part_003 line 240). -/
def sendChatStreamDecode (chunks : List Str) : List SSEvent :=
  decodeChunksLoop chunks ++ [SSEvent.complete]

/-- The error message built for a non-success HTTP response (part_003
lines 176-179): the JSON `error` field if truthy, otherwise
`HTTP error: (status)`. -/
def httpErrorMessage (status : Nat) (body : Str) : Str :=
  match jsonParseObj body with
  | some obj =>
    match lookupField obj ("error".data) with
    | some v =>
      if v = [] then ("HTTP error: ".data) ++ (Nat.repr status).data else v
    | none => ("HTTP error: ".data) ++ (Nat.repr status).data
  | none => ("HTTP error: ".data) ++ (Nat.repr status).data

/-- The possible outcomes of the `fetch` and body-reading I/O performed by
`sendChatStreamMessage`: the request itself fails, the server answers with
a non-success status, the response has no body, reading fails midway after
some chunks, or the whole chunked stream is delivered. -/
inductive FetchOutcome where
  | fetchFailed (msg : Str)
  | httpError (status : Nat) (body : Str)
  | noBody
  | streamFail (chunks : List Str) (msg : Str)
  | stream (chunks : List Str)
deriving DecidableEq

/-- The full notification sequence of `sendChatStreamMessage`
(part_003 lines 160-245) for each I/O outcome.  The surrounding
`try/catch` converts every thrown error into a single `onError`
invocation (lines 241-244) — the function is total and never re-throws. -/
def sendChatStreamMessage : FetchOutcome → List SSEvent
  | FetchOutcome.fetchFailed msg => [SSEvent.error msg]
  | FetchOutcome.httpError status body => [SSEvent.error (httpErrorMessage status body)]
  | FetchOutcome.noBody => [SSEvent.error ("No response body".data)]
  | FetchOutcome.streamFail chunks msg => decodeChunksLoop chunks ++ [SSEvent.error msg]
  | FetchOutcome.stream chunks => sendChatStreamDecode chunks

/-- Caller-visible callback invocations of the Stream Session Controller:
what `Chat.tsx` observes through the callbacks it hands to
`useChatStream` (a delta handler and a completion handler; conversation-id
assignment and the degenerate error path are shown as separate events). -/
inductive CallerEvent where
  | init (conversationId : Str)
  | delta (text : Str)
  | complete
  | failed (msg : Str)
deriving DecidableEq, Repr

/-- Modelled from the spec: the Stream Session Controller (`useChatStream`)
is not under src/ — only its caller `Chat.tsx` is — so its adaptation of
decoder notifications to caller callbacks is taken from spec §4.2:
`onComplete` fires exactly once logically per request ... the controller
is responsible for this idempotence, e.g. by ignoring a second completion
signal for the same request; and §4.2/§7: failure routes to the error
path; the controller must still eventually invoke completion, error being
a degenerate path that still allows completion.  The Boolean argument is
the per-request completed flag; `init` and `delta` notifications are
forwarded unchanged (§5 strict FIFO). -/
def controllerRunAux (completed : Bool) : List SSEvent → List CallerEvent
  | [] => []
  | SSEvent.init cid :: rest => CallerEvent.init cid :: controllerRunAux completed rest
  | SSEvent.delta t :: rest => CallerEvent.delta t :: controllerRunAux completed rest
  | SSEvent.complete :: rest =>
    if completed then controllerRunAux true rest
    else CallerEvent.complete :: controllerRunAux true rest
  | SSEvent.error m :: rest =>
    if completed then CallerEvent.failed m :: controllerRunAux true rest
    else CallerEvent.failed m :: CallerEvent.complete :: controllerRunAux true rest

/-- One request through the spec-modelled controller: the completed flag
starts false. -/
def controllerRun (evs : List SSEvent) : List CallerEvent :=
  controllerRunAux false evs

/-- Decoder notifications that are an invocation of `onComplete`. -/
def isCompleteEv : SSEvent → Bool
  | SSEvent.complete => true
  | _ => false

/-- Decoder notifications that are an invocation of `onError`. -/
def isErrorEv : SSEvent → Bool
  | SSEvent.error _ => true
  | _ => false

/-- Decoder notifications after which the spec-modelled controller regards
the request as completed (an explicit completion, or the degenerate error
path of spec §7). -/
def isCompletionSignal (e : SSEvent) : Bool := isCompleteEv e || isErrorEv e

/-- Caller-side events that are an invocation of the completion
callback. -/
def isCallerComplete : CallerEvent → Bool
  | CallerEvent.complete => true
  | _ => false

/-- Number of caller-visible completion-callback invocations. -/
def callerCompleteCount (outs : List CallerEvent) : Nat :=
  outs.countP isCallerComplete

/-- I/O outcomes on which `sendChatStreamMessage` takes a failure path:
every outcome except a delivered stream, and a delivered stream whose
decoding reports an `error` notification. -/
def isFailureOutcome : FetchOutcome → Bool
  | FetchOutcome.stream chunks => (decodeChunksLoop chunks).any isErrorEv
  | _ => true

/-- Message sender on the frontend (useChatHistory.ts line 30): `USER`
maps to `user`, `ASSISTANT` to the assistant persona. -/
inductive Sender where
  | user
  | misha
deriving DecidableEq, Repr

/-- Backend message type (part_003 line 56). -/
inductive MsgType where
  | USER
  | ASSISTANT
deriving DecidableEq, Repr

/-- Frontend `Message` (types/health, as used by useChatHistory.ts):
`timestamp` is the `Date` obtained from `createdAt`, modelled by its epoch
value (ISO-8601 parsing is order-preserving). -/
structure Message where
  id : Str
  content : Str
  sender : Sender
  timestamp : Nat
deriving DecidableEq, Repr

/-- Backend `MessageDto` (part_003 lines 53-59), `createdAt` modelled by
its epoch value. -/
structure MessageDto where
  id : Nat
  content : Str
  type : MsgType
  createdAt : Nat
  responseTimeMs : Option Nat
deriving DecidableEq, Repr

/-- Backend `PagedMessagesResponse` (part_003 lines 72-80). -/
structure PagedMessagesResponse where
  messages : List MessageDto
  page : Nat
  size : Nat
  totalElements : Nat
  totalPages : Nat
  hasMore : Bool
  conversationId : Str
deriving DecidableEq, Repr

/-- JS `dto.id.toString()` (useChatHistory.ts lines 28 and 120). -/
def idStr (dto : MessageDto) : Str := (Nat.repr dto.id).data

/-- `convertToMessage` (useChatHistory.ts lines 27-32). -/
def convertToMessage (dto : MessageDto) : Message :=
  { id := idStr dto
    content := dto.content
    sender := if dto.type = MsgType.USER then Sender.user else Sender.misha
    timestamp := dto.createdAt }

/-- The state owned by one `useChatHistory` instance (useChatHistory.ts
lines 39-47): the six state cells and the `loadedMessageIds` ref, the
`Set<string>` being modelled as a duplicate-free insertion-ordered list. -/
structure HistoryState where
  messages : List Message
  conversationId : Option Str
  hasMoreMessages : Bool
  isLoadingHistory : Bool
  isLoadingMore : Bool
  currentPage : Nat
  loadedMessageIds : List Str
deriving DecidableEq, Repr

/-- JS `Set.prototype.add` on the modelled id set. -/
def insertId (ids : List Str) (x : Str) : List Str :=
  if x ∈ ids then ids else ids ++ [x]

/-- The initial state of a fresh `useChatHistory` instance, also the
result of `clearHistory` (useChatHistory.ts lines 140-146). -/
def historyInit : HistoryState :=
  { messages := []
    conversationId := none
    hasMoreMessages := false
    isLoadingHistory := false
    isLoadingMore := false
    currentPage := 0
    loadedMessageIds := [] }

/-- Success path of `loadInitialMessages` (useChatHistory.ts lines 77-100):
guard on a falsy `convId`; clear the id set; replace the message list by
the converted page IN WIRE ORDER (no reversal appears in the source);
record the ids; take `hasMore` from the response; reset the page cursor;
adopt the conversation id; `finally` clears the loading flag. -/
def loadInitialMessagesOk (s : HistoryState) (convId : Str)
    (resp : PagedMessagesResponse) : HistoryState :=
  if convId = [] then s
  else
    let converted := resp.messages.map convertToMessage
    { s with
      messages := converted
      loadedMessageIds := (converted.map (fun m => m.id)).foldl insertId []
      hasMoreMessages := resp.hasMore
      currentPage := 0
      conversationId := some convId
      isLoadingHistory := false }

/-- The page request issued by `loadMoreMessages`
(useChatHistory.ts lines 111-116). -/
structure FetchReq where
  conversationId : Str
  page : Nat
  size : Nat
deriving DecidableEq, Repr

/-- Synchronous prefix of `loadMoreMessages` up to its `await`
(useChatHistory.ts lines 105-116): `none` when the guard
`if (!conversationId || !hasMoreMessages || isLoadingMore) return` takes
the early exit — no fetch is issued and no state cell changes — otherwise
the state with the in-flight flag raised, together with the issued page
request for `currentPage + 1`. -/
def loadMoreStart (s : HistoryState) (pageSize : Nat) :
    Option (HistoryState × FetchReq) :=
  match s.conversationId with
  | none => none
  | some cid =>
    if cid = [] then none
    else if !s.hasMoreMessages then none
    else if s.isLoadingMore then none
    else some ({ s with isLoadingMore := true },
      { conversationId := cid, page := s.currentPage + 1, size := pageSize })

/-- Resolution of `loadMoreMessages` when the page fetch succeeds
(useChatHistory.ts lines 118-129, 132-134): filter out dtos whose
stringified id is already in the id set, convert, record the new ids,
prepend the remaining messages IN WIRE ORDER, take `hasMore` from the
response, advance the cursor, and `finally` drop the in-flight flag. -/
def loadMoreResolveOk (s : HistoryState) (resp : PagedMessagesResponse) :
    HistoryState :=
  let newMessages :=
    (resp.messages.filter
      (fun dto => !(decide (idStr dto ∈ s.loadedMessageIds)))).map convertToMessage
  { s with
    messages := newMessages ++ s.messages
    loadedMessageIds := (newMessages.map (fun m => m.id)).foldl insertId s.loadedMessageIds
    hasMoreMessages := resp.hasMore
    currentPage := s.currentPage + 1
    isLoadingMore := false }

/-- Resolution of `loadMoreMessages` when the page fetch rejects
(useChatHistory.ts lines 130-134): the `catch` only logs — no state cell
is touched — and the `finally` drops the in-flight flag; the error does
not propagate (the function is total). -/
def loadMoreResolveErr (s : HistoryState) : HistoryState :=
  { s with isLoadingMore := false }

/-- Ascending chronological order of a message list (spec §4.3 invariant:
oldest first). -/
def chronAscending : List Message → Bool
  | [] => true
  | [_] => true
  | a :: b :: rest => decide (a.timestamp ≤ b.timestamp) && chronAscending (b :: rest)

/-- The §8 History Store scenario: a wire page of 15 messages, ids 114
down to 100, newest first (descending `createdAt`), with more pages
available. -/
def pageNewestFirst15 : PagedMessagesResponse :=
  { messages := (List.range 15).map (fun i =>
      { id := 114 - i
        content := ("m".data)
        type := MsgType.ASSISTANT
        createdAt := 1114 - i
        responseTimeMs := none })
    page := 0
    size := 15
    totalElements := 30
    totalPages := 2
    hasMore := true
    conversationId := ("c1".data) }

/-- Fixture: a pre-merge History Store state holding one already-loaded
message with id 1, its id recorded in the loaded-ID set, a page fetch in
flight. -/
def histPre : HistoryState :=
  { messages := [{ id := ("1").data, content := ("hi").data,
                   sender := Sender.user, timestamp := 1 }]
    conversationId := some (("c1").data)
    hasMoreMessages := true
    isLoadingHistory := false
    isLoadingMore := true
    currentPage := 0
    loadedMessageIds := [("1").data] }

/-- Fixture: a fetched page of two messages whose first message (id 1)
overlaps the already-loaded set of `histPre`. -/
def pageOverlap : PagedMessagesResponse :=
  { messages :=
      [{ id := 1, content := ("a").data, type := MsgType.USER,
         createdAt := 1, responseTimeMs := none },
       { id := 2, content := ("b").data, type := MsgType.ASSISTANT,
         createdAt := 0, responseTimeMs := none }]
    page := 1
    size := 2
    totalElements := 3
    totalPages := 2
    hasMore := false
    conversationId := ("c1").data }

theorem controllerRunAux_count (evs : List SSEvent) :
    ∀ b : Bool, (controllerRunAux b evs).countP isCallerComplete =
      if b then 0 else if evs.any isCompletionSignal then 1 else 0 := by
  induction evs with
  | nil => intro b; cases b <;> rfl
  | cons e rest ih =>
    intro b
    have h0 := ih true
    have h1 := ih false
    cases e <;> cases b <;>
      simp [controllerRunAux, List.countP_cons, isCallerComplete,
        isCompletionSignal, isCompleteEv, isErrorEv] at h0 h1 ⊢ <;>
      first
      | exact h0
      | exact h1

theorem controllerRunAux_error (m : Str) (evs : List SSEvent) :
    ∀ b : Bool, SSEvent.error m ∈ evs →
      CallerEvent.failed m ∈ controllerRunAux b evs := by
  induction evs with
  | nil => intro b h; simp at h
  | cons e rest ih =>
    intro b hmem
    rcases List.mem_cons.mp hmem with he | hrest
    · subst he; cases b <;> simp [controllerRunAux]
    · cases e with
      | init cid => exact List.mem_cons_of_mem _ (ih b hrest)
      | delta t => exact List.mem_cons_of_mem _ (ih b hrest)
      | complete =>
        cases b with
        | true => exact ih true hrest
        | false => exact List.mem_cons_of_mem _ (ih true hrest)
      | error m2 =>
        cases b with
        | true => exact List.mem_cons_of_mem _ (ih true hrest)
        | false =>
          exact List.mem_cons_of_mem _ (List.mem_cons_of_mem _ (ih true hrest))

theorem splitLines_no_nl : ∀ (f : Str), '\n' ∉ f → splitLines f = ([], f) := by
  intro f
  induction f with
  | nil => intro _; rfl
  | cons c rest ih =>
    intro h
    have hc : ¬(c = '\n') := by rintro rfl; exact h (List.mem_cons_self _ _)
    have hr : '\n' ∉ rest := fun hm => h (List.mem_cons_of_mem _ hm)
    simp [splitLines, hc, ih hr]

theorem splitLines_append (x : Str) : ∀ {f : Str}, '\n' ∉ f →
    splitLines (x ++ f) = ((splitLines x).1, (splitLines x).2 ++ f) := by
  induction x with
  | nil => intro f h; simp [splitLines_no_nl f h, splitLines]
  | cons c x ih =>
    intro f h
    by_cases hc : c = '\n'
    · simp [splitLines, hc, ih h]
    · cases hx : (splitLines x).1 with
      | nil => simp [splitLines, hc, ih h, hx]
      | cons l ls => simp [splitLines, hc, ih h, hx]

theorem splitLines_frag_no_nl : ∀ (s : Str), '\n' ∉ (splitLines s).2 := by
  intro s
  induction s with
  | nil => simp [splitLines]
  | cons c rest ih =>
    by_cases hc : c = '\n'
    · simp [splitLines, hc, ih]
    · cases hx : (splitLines rest).1 with
      | nil =>
        have hshape : splitLines (c :: rest) = ([], c :: (splitLines rest).2) := by
          simp [splitLines, hc, hx]
        rw [hshape]
        intro hm
        rcases List.mem_cons.mp hm with he | hm2
        · exact hc he.symm
        · exact ih hm2
      | cons l ls => simp [splitLines, hc, hx, ih]

theorem decodeStep_frag (b t : Str) (evs : List SSEvent)
    (hb : '\n' ∉ b) (ht : '\n' ∉ t) :
    decodeStep (b, evs) t = (b ++ t, evs) := by
  have h : '\n' ∉ b ++ t := by
    intro hm
    rcases List.mem_append.mp hm with hm | hm
    · exact hb hm
    · exact ht hm
  simp [decodeStep, splitLines_no_nl _ h, processLines]

theorem foldl_decodeStep_no_nl (ts : List Str) :
    ∀ (b : Str) (evs : List SSEvent), '\n' ∉ b → (∀ t ∈ ts, '\n' ∉ t) →
      (ts.foldl decodeStep (b, evs)).2 = evs := by
  induction ts with
  | nil => intro b evs _ _; rfl
  | cons t ts ih =>
    intro b evs hb hts
    rw [List.foldl_cons, decodeStep_frag b t evs hb (hts t (List.mem_cons_self _ _))]
    refine ih (b ++ t) evs ?_ (fun u hu => hts u (List.mem_cons_of_mem _ hu))
    intro hm
    rcases List.mem_append.mp hm with hm | hm
    · exact hb hm
    · exact hts t (List.mem_cons_self _ _) hm

theorem length_filter_not_add {α : Type} (p : α → Bool) (l : List α) :
    (l.filter (fun a => !(p a))).length + l.countP p = l.length := by
  induction l with
  | nil => simp
  | cons a l ih =>
    by_cases h : p a <;>
      simp [List.filter_cons, List.countP_cons, h] <;> omega

/-- C1: the claim states that decoding is invariant under re-chunking of
the same logical byte stream.  It is false on the code: because
`currentEvent` is declared inside the `while` read loop (part_003 line
199), the current event name is reset at every chunk boundary.  This
theorem exhibits the same logical stream `event: complete\ndata: x\n`
delivered as one chunk and as two chunks with different decodings: the
one-chunk delivery emits a completion for the data line, the split
delivery emits a delta. -/
theorem c1_chunking_depends_on_boundaries :
    (("event: complete\n").data ++ ("data: x\n").data =
      ("event: complete\ndata: x\n").data) ∧
    sendChatStreamDecode [("event: complete\ndata: x\n").data] ≠
      sendChatStreamDecode [("event: complete\n").data, ("data: x\n").data] := by
  decide

/-- C2: for a request whose stream contains an explicit `complete` event
(so the read loop itself emits a completion), the decoder signals
completion at least twice (the explicit event plus the end-of-stream
flush of part_003 line 240), yet the caller-visible completion callback —
behind the spec-modelled Stream Session Controller, which ignores a
second completion signal for the same request — fires exactly once. -/
theorem c2_completion_idempotent (cs : List Str)
    (h : SSEvent.complete ∈ decodeChunksLoop cs) :
    2 ≤ (sendChatStreamDecode cs).countP isCompleteEv ∧
    callerCompleteCount (controllerRun (sendChatStreamDecode cs)) = 1 := by
  constructor
  · have h1 : 0 < (decodeChunksLoop cs).countP isCompleteEv :=
      List.countP_pos_iff.mpr ⟨_, h, rfl⟩
    unfold sendChatStreamDecode
    rw [List.countP_append]
    have h2 : List.countP isCompleteEv [SSEvent.complete] = 1 := rfl
    omega
  · unfold callerCompleteCount controllerRun
    rw [controllerRunAux_count]
    have hany : (sendChatStreamDecode cs).any isCompletionSignal = true := by
      unfold sendChatStreamDecode
      simp [List.any_append, isCompletionSignal, isCompleteEv]
    simp [hany]

theorem c2_completion_idempotent_witness :
    SSEvent.complete ∈ decodeChunksLoop [("event: complete\ndata: end\n").data] ∧
    (2 ≤ (sendChatStreamDecode [("event: complete\ndata: end\n").data]).countP
        isCompleteEv ∧
      callerCompleteCount (controllerRun
        (sendChatStreamDecode [("event: complete\ndata: end\n").data])) = 1) :=
  ⟨by decide, c2_completion_idempotent _ (by decide)⟩

/-- C3: every failing request — the fetch rejects, the server answers a
non-success status, the body is missing, reading fails midway, or the
decoded stream carries an `error` event — invokes the error callback, and
behind the spec-modelled controller the completion callback still fires
exactly once, so loading state cannot hang.  `sendChatStreamMessage`
being a total function embodies the fact that the try/catch of part_003
lines 241-244 lets no exception escape. -/
theorem c3_failure_still_completes (o : FetchOutcome)
    (h : isFailureOutcome o = true) :
    (∃ m, CallerEvent.failed m ∈ controllerRun (sendChatStreamMessage o)) ∧
    callerCompleteCount (controllerRun (sendChatStreamMessage o)) = 1 := by
  have herr : ∃ m, SSEvent.error m ∈ sendChatStreamMessage o := by
    cases o with
    | fetchFailed m => exact ⟨m, by simp [sendChatStreamMessage]⟩
    | httpError st body =>
      exact ⟨httpErrorMessage st body, by simp [sendChatStreamMessage]⟩
    | noBody =>
      exact ⟨("No response body".data), by simp [sendChatStreamMessage]⟩
    | streamFail cs m =>
      exact ⟨m, by simp [sendChatStreamMessage, List.mem_append]⟩
    | stream cs =>
      simp [isFailureOutcome, List.any_eq_true] at h
      obtain ⟨e, he, hE⟩ := h
      cases e with
      | error m =>
        refine ⟨m, ?_⟩
        simp only [sendChatStreamMessage, sendChatStreamDecode, List.mem_append]
        exact Or.inl he
      | init cid => simp [isErrorEv] at hE
      | delta t => simp [isErrorEv] at hE
      | complete => simp [isErrorEv] at hE
  constructor
  · obtain ⟨m, hm⟩ := herr
    exact ⟨m, controllerRunAux_error m _ false hm⟩
  · unfold callerCompleteCount controllerRun
    rw [controllerRunAux_count]
    have hany : (sendChatStreamMessage o).any isCompletionSignal = true := by
      obtain ⟨m, hm⟩ := herr
      exact List.any_eq_true.mpr ⟨_, hm, by simp [isCompletionSignal, isErrorEv]⟩
    simp [hany]

theorem c3_failure_still_completes_witness :
    isFailureOutcome (FetchOutcome.httpError 500 (("\x7b\x7d").data)) = true ∧
    ((∃ m, CallerEvent.failed m ∈ controllerRun
        (sendChatStreamMessage (FetchOutcome.httpError 500 (("\x7b\x7d").data)))) ∧
      callerCompleteCount (controllerRun
        (sendChatStreamMessage (FetchOutcome.httpError 500 (("\x7b\x7d").data)))) = 1) :=
  ⟨by decide, c3_failure_still_completes _ (by decide)⟩

/-- C4: the claim states that after a successful initial load whose wire
payload is newest-first, the stored list is in ascending chronological
order (the implementation reversing the page before insertion).  It is
false on the code: `loadInitialMessages` (useChatHistory.ts lines 84-94)
stores the converted page in wire order without any reversal.  On the §8
scenario — 15 messages, ids 114 down to 100, newest first — the stored
list keeps the descending wire order, while `hasMore` is taken from the
response as specified. -/
theorem c4_initial_load_keeps_wire_order :
    chronAscending
      ((loadInitialMessagesOk historyInit (("c1").data) pageNewestFirst15).messages)
        = false ∧
    (loadInitialMessagesOk historyInit (("c1").data) pageNewestFirst15).messages.map
        (fun m => m.timestamp) = (List.range 15).map (fun i => 1114 - i) ∧
    (loadInitialMessagesOk historyInit (("c1").data) pageNewestFirst15).hasMoreMessages
      = true := by
  decide

/-- C5: the claim states that an empty line resets the current event name
to the default, so a data line after an `event: complete` block separated
by an empty line is a plain delta.  It is false on the code: the reset
(part_003 lines 232-235) is nested inside the `data: ` branch and is
unreachable, and an empty line matches neither branch.  On the one-chunk
stream `event: complete\ndata: x\n\ndata: y\n` the line `data: y` after
the empty line still fires a completion — three completions in total with
the end-of-stream flush — and no delta is emitted. -/
theorem c5_empty_line_does_not_reset :
    sendChatStreamDecode [("event: complete\ndata: x\n\ndata: y\n").data] =
      [SSEvent.complete, SSEvent.complete, SSEvent.complete] ∧
    SSEvent.delta (("y").data) ∉
      sendChatStreamDecode [("event: complete\ndata: x\n\ndata: y\n").data] := by
  decide

/-- C6: deduplication of the `loadMoreMessages` merge step
(useChatHistory.ts lines 118-127).  Under the operating invariants — the
current list has pairwise-distinct ids all recorded in the loaded-ID set,
and the fetched page has pairwise-distinct ids — the merge never appends
a message whose id is already in the loaded-ID set (every stored message
with a recorded id was already present), the new length is the old length
plus the page size minus the overlap count, and no two messages of the
resulting list share an id. -/
theorem c6_merge_dedup (s : HistoryState) (resp : PagedMessagesResponse)
    (h1 : (s.messages.map (fun m => m.id)).Nodup)
    (h2 : ∀ m ∈ s.messages, m.id ∈ s.loadedMessageIds)
    (h3 : (resp.messages.map idStr).Nodup) :
    (∀ m ∈ (loadMoreResolveOk s resp).messages,
        m.id ∈ s.loadedMessageIds → m ∈ s.messages) ∧
    (loadMoreResolveOk s resp).messages.length =
      s.messages.length +
        (resp.messages.length -
          resp.messages.countP (fun dto => decide (idStr dto ∈ s.loadedMessageIds))) ∧
    ((loadMoreResolveOk s resp).messages.map (fun m => m.id)).Nodup := by
  have hmsg : (loadMoreResolveOk s resp).messages =
      (resp.messages.filter
        (fun dto => !(decide (idStr dto ∈ s.loadedMessageIds)))).map convertToMessage
        ++ s.messages := rfl
  refine ⟨?_, ?_, ?_⟩
  · intro m hm hid
    rw [hmsg, List.mem_append] at hm
    rcases hm with hm | hm
    · exfalso
      obtain ⟨dto, hdto, hconv⟩ := List.mem_map.mp hm
      have hfilter := (List.mem_filter.mp hdto).2
      have hnot : idStr dto ∉ s.loadedMessageIds := by simpa using hfilter
      apply hnot
      have hideq : m.id = idStr dto := by rw [← hconv]; rfl
      rw [← hideq]
      exact hid
    · exact hm
  · rw [hmsg, List.length_append, List.length_map]
    have hlen := length_filter_not_add
      (fun dto => decide (idStr dto ∈ s.loadedMessageIds)) resp.messages
    omega
  · rw [hmsg, List.map_append, List.nodup_append]
    refine ⟨?_, h1, ?_⟩
    · rw [List.map_map]
      exact List.Nodup.sublist
        (List.Sublist.map idStr (List.filter_sublist _)) h3
    · rw [List.disjoint_left]
      intro a ha hb
      rw [List.map_map] at ha
      obtain ⟨dto, hdto, hid⟩ := List.mem_map.mp ha
      obtain ⟨m, hm, hmid⟩ := List.mem_map.mp hb
      have hfilter := (List.mem_filter.mp hdto).2
      have hnot : idStr dto ∉ s.loadedMessageIds := by simpa using hfilter
      apply hnot
      have hina : a = idStr dto := by rw [← hid]; rfl
      rw [← hina, ← hmid]
      exact h2 m hm

theorem c6_merge_dedup_witness :
    ((histPre.messages.map (fun m => m.id)).Nodup ∧
      (∀ m ∈ histPre.messages, m.id ∈ histPre.loadedMessageIds) ∧
      (pageOverlap.messages.map idStr).Nodup) ∧
    ((∀ m ∈ (loadMoreResolveOk histPre pageOverlap).messages,
        m.id ∈ histPre.loadedMessageIds → m ∈ histPre.messages) ∧
      (loadMoreResolveOk histPre pageOverlap).messages.length =
        histPre.messages.length +
          (pageOverlap.messages.length -
            pageOverlap.messages.countP
              (fun dto => decide (idStr dto ∈ histPre.loadedMessageIds))) ∧
      ((loadMoreResolveOk histPre pageOverlap).messages.map (fun m => m.id)).Nodup) :=
  ⟨⟨by decide, by decide, by decide⟩,
   c6_merge_dedup histPre pageOverlap (by decide) (by decide) (by decide)⟩

/-- C7: `loadMoreMessages` performs no fetch and leaves the state
untouched (`loadMoreStart` returns `none`) when there is no active
conversation (absent or empty id), when no more pages are available, or
when a load is already in flight; and a second call issued against the
state produced by a successful first call is always such a no-op, because
the first call raised the in-flight flag — so two calls in rapid
succession issue exactly one fetch (useChatHistory.ts line 106). -/
theorem c7_single_outstanding (s : HistoryState) (ps : Nat) :
    ((s.conversationId = none ∨ s.conversationId = some [] ∨
        s.hasMoreMessages = false ∨ s.isLoadingMore = true) →
      loadMoreStart s ps = none) ∧
    (∀ s' r, loadMoreStart s ps = some (s', r) → loadMoreStart s' ps = none) := by
  constructor
  · intro h
    unfold loadMoreStart
    cases hc : s.conversationId with
    | none => rfl
    | some cid =>
      rcases h with h | h | h | h
      · rw [hc] at h; exact absurd h (by simp)
      · rw [hc] at h
        have : cid = [] := by injection h
        simp [this]
      · by_cases hcid : cid = [] <;> simp [hcid, h]
      · by_cases hcid : cid = [] <;> by_cases hm : s.hasMoreMessages <;>
          simp [hcid, hm, h]
  · intro s' r h
    unfold loadMoreStart at h ⊢
    cases hc : s.conversationId with
    | none => rw [hc] at h; exact absurd h (by simp)
    | some cid =>
      rw [hc] at h
      by_cases h1 : cid = []
      · simp [h1] at h
      · by_cases h2 : s.hasMoreMessages
        · by_cases h3 : s.isLoadingMore
          · simp [h1, h2, h3] at h
          · simp [h1, h2, h3] at h
            obtain ⟨hs', hr⟩ := h
            rw [← hs']
            simp [hc, h1]
        · simp [h1, h2] at h

theorem c7_single_outstanding_witness :
    loadMoreStart
      ({ messages := [], conversationId := some (("c1").data), hasMoreMessages := false,
         isLoadingHistory := false, isLoadingMore := false, currentPage := 0,
         loadedMessageIds := [] } : HistoryState) 20 = none ∧
    loadMoreStart
      ({ messages := [], conversationId := some (("c1").data), hasMoreMessages := true,
         isLoadingHistory := false, isLoadingMore := true, currentPage := 0,
         loadedMessageIds := [] } : HistoryState) 20 = none :=
  ⟨(c7_single_outstanding _ 20).1 (Or.inr (Or.inr (Or.inl rfl))),
   (c7_single_outstanding
      ({ messages := [], conversationId := some (("c1").data),
         hasMoreMessages := true, isLoadingHistory := false,
         isLoadingMore := false, currentPage := 0,
         loadedMessageIds := [] } : HistoryState) 20).2 _
     ({ conversationId := ("c1").data, page := 1, size := 20 }) (by decide)⟩

/-- C8: end-of-stream flush.  For a stream whose read loop never emits an
explicit completion (no `complete` event was decoded), the unconditional
`onComplete()` after the loop (part_003 line 240) is the only completion
notification, so the caller-supplied `onComplete` callback is invoked
exactly once for the request. -/
theorem c8_end_of_stream_flush (cs : List Str)
    (h : SSEvent.complete ∉ decodeChunksLoop cs) :
    (sendChatStreamDecode cs).countP isCompleteEv = 1 := by
  unfold sendChatStreamDecode
  rw [List.countP_append]
  have h0 : (decodeChunksLoop cs).countP isCompleteEv = 0 := by
    refine List.countP_eq_zero.mpr ?_
    intro a ha
    cases a with
    | complete => intro _; exact h ha
    | init cid => simp [isCompleteEv]
    | delta t => simp [isCompleteEv]
    | error m => simp [isCompleteEv]
  rw [h0]
  rfl

theorem c8_end_of_stream_flush_witness :
    SSEvent.complete ∉ decodeChunksLoop [("data: hi\n").data] ∧
    (sendChatStreamDecode [("data: hi\n").data]).countP isCompleteEv = 1 :=
  ⟨by decide, c8_end_of_stream_flush _ (by decide)⟩

/-- C9: the carry-over buffer is discarded at end-of-stream.  Writing the
stream as some chunks, then a chunk whose content after its last newline
is `f`, then trailing newline-free chunks, the decoding equals that of
the stream truncated right after the last newline: the bytes after the
last newline are held back as the pending fragment and never produce any
notification (part_003 lines 191, 196-197). -/
theorem c9_trailing_fragment_discarded (cs : List Str) (c f : Str) (ts : List Str)
    (hf : '\n' ∉ f) (hts : ∀ t ∈ ts, '\n' ∉ t) :
    sendChatStreamDecode (cs ++ (c ++ f) :: ts) = sendChatStreamDecode (cs ++ [c]) := by
  unfold sendChatStreamDecode
  congr 1
  unfold decodeChunksLoop
  rw [List.foldl_append, List.foldl_append]
  generalize List.foldl decodeStep (([] : Str), ([] : List SSEvent)) cs = P
  obtain ⟨b, evs⟩ := P
  rw [List.foldl_cons]
  have key : decodeStep (b, evs) (c ++ f) =
      ((splitLines (b ++ c)).2 ++ f, evs ++ processLines [] (splitLines (b ++ c)).1) := by
    simp [decodeStep, ← List.append_assoc, splitLines_append _ hf]
  rw [key]
  have hfr : '\n' ∉ (splitLines (b ++ c)).2 ++ f := by
    intro hm
    rcases List.mem_append.mp hm with hm | hm
    · exact splitLines_frag_no_nl _ hm
    · exact hf hm
  rw [foldl_decodeStep_no_nl ts _ _ hfr hts]
  simp [decodeStep]

theorem c9_trailing_fragment_discarded_witness :
    '\n' ∉ (("data: b").data) ∧
    sendChatStreamDecode [(("data: a\n").data) ++ (("data: b").data)] =
      sendChatStreamDecode [("data: a\n").data] :=
  ⟨by decide,
   c9_trailing_fragment_discarded [] (("data: a\n").data) (("data: b").data) []
     (by decide) (by simp)⟩

/-- C10: `loadMoreMessages` is atomic on failure.  If a call passed the
guard (so a fetch was issued from state `s` with the in-flight flag
raised) and the fetch rejects, the `catch` only logs and the `finally`
clears the in-flight flag, returning the store exactly to its pre-call
state `s`: message list, loaded-ID set, page cursor, `hasMore` and
conversation id are unchanged, and a later retry is permitted
(useChatHistory.ts lines 130-134). -/
theorem c10_load_more_failure_atomic (s : HistoryState) (ps : Nat)
    (s' : HistoryState) (r : FetchReq)
    (h : loadMoreStart s ps = some (s', r)) :
    loadMoreResolveErr s' = s := by
  obtain ⟨msgs, conv, hmore, lh, lm, cp, ids⟩ := s
  unfold loadMoreStart at h
  cases conv with
  | none => simp at h
  | some cid =>
    simp only [] at h
    by_cases h1 : cid = []
    · simp [h1] at h
    · by_cases h2 : hmore = true
      · by_cases h3 : lm = true
        · simp [h1, h2, h3] at h
        · have h3' : lm = false := by
            cases hb : lm
            · rfl
            · exact absurd hb h3
          simp [h1, h2, h3'] at h
          obtain ⟨hs', hr⟩ := h
          rw [← hs']
          simp [loadMoreResolveErr, h2, h3']
      · have h2' : hmore = false := by
          cases hb : hmore
          · rfl
          · exact absurd hb h2
        simp [h1, h2'] at h

theorem c10_load_more_failure_atomic_witness :
    loadMoreResolveErr
      ({ messages := [], conversationId := some (("c1").data), hasMoreMessages := true,
         isLoadingHistory := false, isLoadingMore := true, currentPage := 3,
         loadedMessageIds := [] } : HistoryState) =
      ({ messages := [], conversationId := some (("c1").data), hasMoreMessages := true,
         isLoadingHistory := false, isLoadingMore := false, currentPage := 3,
         loadedMessageIds := [] } : HistoryState) :=
  c10_load_more_failure_atomic _ 20 _
    ({ conversationId := ("c1").data, page := 4, size := 20 }) (by decide)
